import Mathlib

/-!
Shallow embedding of the shape-tessellation functions of this repository:
`generateCircle`, `generateRectangle` and `generateLine` from
`test6_functions.py` (the `test5.py` variants `generateFilledCircle`,
`generateFilledRectangle` and `generateLine` emit the same geometry).

Coordinates are modelled as exact real numbers; the Python float calls
`math.sin`, `math.cos`, `math.sqrt` and `math.radians` become `Real.sin`,
`Real.cos`, `Real.sqrt` and multiplication by `π / 180`.  A pyglet vertex
list is modelled by the structure `Mesh`: the flat `v2f` float list becomes
a list of coordinate pairs, the broadcast `c3B` list (`color * n`) becomes a
list of RGB triples, and the index list of `vertex_list_indexed` becomes
`indices = some _` (a plain `vertex_list` has `indices = none`).  The
`batch` parameter of the Python functions only redirects the identical
geometry into a batch object, so it is dropped.
-/

namespace Tess

/-- RGB triple, as in the Python 3-tuples fed to the `c3B` color format. -/
abbrev Color := ℕ × ℕ × ℕ

/-- Output of one tessellation call: vertex positions, one color per
vertex, and an optional index buffer (present exactly when the Python code
builds a `vertex_list_indexed`). -/
structure Mesh where
  vertices : List (ℝ × ℝ)
  colors : List Color
  indices : Option (List ℕ)

/-- The well-formedness invariant of a `Mesh`: one color per vertex, and
every index in an index buffer refers to an existing vertex. -/
def MeshWF (m : Mesh) : Prop :=
  m.colors.length = m.vertices.length ∧
    ∀ l, m.indices = some l → ∀ i ∈ l, i < m.vertices.length

/-- Index-buffer loop of the filled-circle code
(`for i in range(1, num_points + 1): order += [0, i, i+1]`), with the
running value of `i` as an explicit argument. -/
def fanLoop : ℕ → ℕ → List ℕ
  | 0, _ => []
  | n + 1, i => [0, i, i + 1] ++ fanLoop n (i + 1)

/-- The complete triangle-fan index buffer built by the filled-circle code:
the loop above started at `i = 1`. -/
def fanOrder (numPoints : ℕ) : List ℕ :=
  fanLoop numPoints 1

noncomputable section

/-- Python's `math.radians`. -/
def radians (x : ℝ) : ℝ := x * Real.pi / 180

/-- One application of the Cartesian rotation matrix used throughout the
source: `(x, y) ↦ (x·cosine − y·sine, x·sine + y·cosine)`. -/
def rot (cosine sine : ℝ) (v : ℝ × ℝ) : ℝ × ℝ :=
  (v.1 * cosine - v.2 * sine, v.1 * sine + v.2 * cosine)

/-- The perimeter loop of `generateCircle`: starting from the running local
vertex, repeatedly rotate by the fixed angle and collect the results (the
source then translates each collected vertex by the center). -/
def circleLoop (cosine sine : ℝ) : ℕ → ℝ × ℝ → List (ℝ × ℝ)
  | 0, _ => []
  | n + 1, cur =>
    let next := rot cosine sine cur
    next :: circleLoop cosine sine n next

/-- Embedding of `generateCircle(center, radius, num_points, color, fill)`
from `test6_functions.py` (lines 19–97).  The vertex list starts at the top
of the circle, `num_points` further vertices are produced by incremental
rotation by `radians(360 / num_points)`; filled mode prepends the center
and attaches the triangle-fan index buffer, outline mode has no indices. -/
def generateCircle (center : ℝ × ℝ) (radius : ℝ) (numPoints : ℕ)
    (color : Color) (fill : Bool) : Mesh :=
  let angle := radians (360 / numPoints)
  let cosine := Real.cos angle
  let sine := Real.sin angle
  let verts := (center.1, center.2 + radius) ::
    (circleLoop cosine sine numPoints (0, radius)).map
      (fun v => (v.1 + center.1, v.2 + center.2))
  if fill then
    { vertices := center :: verts
      colors := List.replicate (numPoints + 2) color
      indices := some (fanOrder numPoints) }
  else
    { vertices := verts
      colors := List.replicate (numPoints + 1) color
      indices := none }

/-- Embedding of `generateRectangle(origin, width, height, color, fill)`
from `test6_functions.py` (lines 110–146): four counter-clockwise corners
starting at the bottom-left origin; filled mode uses the two-triangle index
buffer `[0,1,2,2,3,0]`, outline mode appends the first corner again. -/
def generateRectangle (origin : ℝ × ℝ) (width height : ℝ)
    (color : Color) (fill : Bool) : Mesh :=
  let verts := [(origin.1, origin.2), (origin.1 + width, origin.2),
    (origin.1 + width, origin.2 + height), (origin.1, origin.2 + height)]
  if fill then
    { vertices := verts
      colors := List.replicate 4 color
      indices := some [0, 1, 2, 2, 3, 0] }
  else
    { vertices := verts ++ [(origin.1, origin.2)]
      colors := List.replicate 5 color
      indices := none }

/-- The general (non-axis-aligned) branch of `generateLine`
(`test6_functions.py` lines 198–245), verbatim: slope, the
`1/√(1+slope²)` cosine, the endpoints translated so their midpoint is the
origin, the four corner points `q1..q4`, and the index buffer
`[0,1,3,2,1,3]`. -/
def lineGeneralCase (p1 p2 : ℝ × ℝ) (color : Color) (width : ℝ) : Mesh :=
  let slope := (p2.2 - p1.2) / (p2.1 - p1.1)
  let cosine := 1 / Real.sqrt (1 + slope ^ 2)
  let sine := cosine * slope
  let midX := 0.5 * (p1.1 + p2.1)
  let midY := 0.5 * (p1.2 + p2.2)
  let l1 : ℝ × ℝ := (p1.1 - midX, p1.2 - midY)
  let l2 : ℝ × ℝ := (p2.1 - midX, p2.2 - midY)
  let q1 : ℝ × ℝ := (l1.1 * cosine - (l1.2 + 0.5 * width) * sine + midX,
    l1.1 * sine + (l1.2 + 0.5 * width) * cosine + midY)
  let q2 : ℝ × ℝ := (l1.1 * cosine - (l1.2 - 0.5 * width) * sine + midX,
    l1.1 * sine + (l1.2 - 0.5 * width) * cosine + midY)
  let q3 : ℝ × ℝ := (l2.1 * cosine - (l2.2 - 0.5 * width) * sine + midX,
    l2.1 * sine + (l2.2 - 0.5 * width) * cosine + midY)
  let q4 : ℝ × ℝ := (l2.1 * cosine - (l2.2 + 0.5 * width) * sine + midX,
    l2.1 * sine + (l2.2 + 0.5 * width) * cosine + midY)
  { vertices := [q1, q2, q3, q4]
    colors := List.replicate 4 color
    indices := some [0, 1, 3, 2, 1, 3] }

/-- Embedding of `generateLine(p1, p2, color, width)` from
`test6_functions.py` (lines 159–255): thickness `≤ 1` gives a bare
2-vertex segment; otherwise the vertical (`p2.x == p1.x`) and horizontal
(`p2.y == p1.y`) fast paths delegate to the filled rectangle, and every
remaining input goes to `lineGeneralCase`. -/
def generateLine (p1 p2 : ℝ × ℝ) (color : Color) (width : ℝ) : Mesh :=
  if width ≤ 1 then
    { vertices := [p1, p2]
      colors := List.replicate 2 color
      indices := none }
  else if p2.1 = p1.1 then
    let origin : ℝ × ℝ :=
      if p1.2 ≤ p2.2 then (p1.1 - 0.5 * width, p1.2)
      else (p2.1 - 0.5 * width, p2.2)
    generateRectangle origin width |p2.2 - p1.2| color true
  else if p2.2 = p1.2 then
    let origin : ℝ × ℝ :=
      if p1.1 ≤ p2.1 then (p1.1, p1.2 - 0.5 * width)
      else (p2.1, p2.2 - 0.5 * width)
    generateRectangle origin |p2.1 - p1.1| width color true
  else
    lineGeneralCase p1 p2 color width

/-- Shoelace area of one triangle, for checking the filled-rectangle
triangulation. -/
def triangleArea (a b c : ℝ × ℝ) : ℝ :=
  |a.1 * (b.2 - c.2) + b.1 * (c.2 - a.2) + c.1 * (a.2 - b.2)| / 2

/-- Squared perpendicular distance of a point from the line through
`(0,0)` and `(10,10)` (the line `y = x`): `(y − x)² / 2`. -/
def perpOffsetSq (v : ℝ × ℝ) : ℝ := (v.2 - v.1) ^ 2 / 2

end

theorem circleLoop_length (c s : ℝ) : ∀ (n : ℕ) (v : ℝ × ℝ),
    (circleLoop c s n v).length = n
  | 0, _ => rfl
  | n + 1, v => by
    simp only [circleLoop, List.length_cons, circleLoop_length c s n]

theorem circleLoop_eq_map (c s : ℝ) : ∀ (n : ℕ) (v : ℝ × ℝ),
    circleLoop c s n v = (List.range n).map (fun k => (rot c s)^[k + 1] v)
  | 0, _ => by simp [circleLoop]
  | n + 1, v => by
    rw [circleLoop, circleLoop_eq_map c s n (rot c s v), List.range_succ_eq_map]
    simp only [List.map_cons, List.map_map, Function.iterate_one]
    refine congrArg₂ _ rfl (List.map_congr_left fun k _ => ?_)
    simp [Function.comp, Function.iterate_succ_apply, Nat.succ_eq_add_one]

theorem rot_iterate (θ : ℝ) (v : ℝ × ℝ) : ∀ k : ℕ,
    (rot (Real.cos θ) (Real.sin θ))^[k] v
      = rot (Real.cos (k * θ)) (Real.sin (k * θ)) v
  | 0 => by simp [rot]
  | k + 1 => by
    rw [Function.iterate_succ_apply', rot_iterate θ v k]
    have hc : ((k : ℝ) + 1) * θ = k * θ + θ := by ring
    simp only [Nat.cast_add, Nat.cast_one, hc, Real.cos_add, Real.sin_add, rot]
    exact Prod.ext (by ring) (by ring)

theorem fanLoop_length : ∀ (n i : ℕ), (fanLoop n i).length = 3 * n
  | 0, _ => rfl
  | n + 1, i => by
    simp only [fanLoop, List.length_append, List.length_cons, List.length_nil,
      fanLoop_length n (i + 1)]
    omega

theorem fanLoop_getD : ∀ (n i k : ℕ), k < n →
    (fanLoop n i).getD (3 * k) 0 = 0
      ∧ (fanLoop n i).getD (3 * k + 1) 0 = i + k
      ∧ (fanLoop n i).getD (3 * k + 2) 0 = i + k + 1
  | 0, _, _, hk => absurd hk (Nat.not_lt_zero _)
  | n + 1, i, 0, _ => by simp [fanLoop]
  | n + 1, i, k + 1, hk => by
    have h3 : 3 * (k + 1) = (3 * k + 2) + 1 := by ring
    have ih := fanLoop_getD n (i + 1) k (by omega)
    simp only [fanLoop, List.cons_append, List.nil_append, h3,
      List.getD_cons_succ] at ih ⊢
    exact ⟨ih.1, by omega, by omega⟩

theorem fanLoop_le : ∀ (n i : ℕ), ∀ x ∈ fanLoop n i, x ≤ i + n
  | 0, _ => by simp [fanLoop]
  | n + 1, i => by
    intro x hx
    simp only [fanLoop, List.cons_append, List.nil_append, List.mem_cons] at hx
    rcases hx with rfl | rfl | rfl | hx
    · omega
    · omega
    · omega
    · have := fanLoop_le n (i + 1) x hx
      omega

theorem generateCircle_outline_vertices (ctr : ℝ × ℝ) (r : ℝ) (n : ℕ)
    (col : Color) :
    (generateCircle ctr r n col false).vertices
      = (ctr.1, ctr.2 + r) :: (List.range n).map (fun k =>
          (((rot (Real.cos (radians (360 / n)))
              (Real.sin (radians (360 / n))))^[k + 1] (0, r)).1 + ctr.1,
           ((rot (Real.cos (radians (360 / n)))
              (Real.sin (radians (360 / n))))^[k + 1] (0, r)).2 + ctr.2)) := by
  simp only [generateCircle, Bool.false_eq_true, if_false, circleLoop_eq_map,
    List.map_map]
  rfl

theorem generateRectangle_wf (o : ℝ × ℝ) (w h : ℝ) (col : Color)
    (fill : Bool) : MeshWF (generateRectangle o w h col fill) := by
  cases fill with
  | false =>
    refine ⟨by simp [generateRectangle], fun l hl => ?_⟩
    simp [generateRectangle] at hl
  | true =>
    refine ⟨by simp [generateRectangle], fun l hl i hi => ?_⟩
    simp only [generateRectangle, if_true] at hl hi ⊢
    simp only [Option.some.injEq] at hl
    subst hl
    simp only [List.length_cons, List.length_nil, List.mem_cons,
      List.not_mem_nil, or_false] at hi ⊢
    rcases hi with rfl | rfl | rfl | rfl | rfl | rfl <;> omega

theorem generateCircle_wf (ctr : ℝ × ℝ) (r : ℝ) (n : ℕ) (col : Color)
    (fill : Bool) : MeshWF (generateCircle ctr r n col fill) := by
  cases fill with
  | false =>
    refine ⟨?_, fun l hl => ?_⟩
    · simp [generateCircle, circleLoop_length]
    · simp [generateCircle] at hl
  | true =>
    refine ⟨?_, fun l hl i hi => ?_⟩
    · simp [generateCircle, circleLoop_length]
    · simp only [generateCircle, if_true, Option.some.injEq] at hl hi ⊢
      subst hl
      have hle := fanLoop_le n 1 i hi
      simp only [List.length_cons, List.length_map, circleLoop_length]
      omega

theorem generateLine_wf (p1 p2 : ℝ × ℝ) (col : Color) (w : ℝ) :
    MeshWF (generateLine p1 p2 col w) := by
  rw [generateLine]
  split
  · exact ⟨by simp, fun l hl => by simp at hl⟩
  · split
    · exact generateRectangle_wf _ _ _ _ _
    · split
      · exact generateRectangle_wf _ _ _ _ _
      · refine ⟨by simp [lineGeneralCase], fun l hl i hi => ?_⟩
        simp only [lineGeneralCase, Option.some.injEq] at hl hi ⊢
        subst hl
        simp only [List.length_cons, List.length_nil, List.mem_cons,
          List.not_mem_nil, or_false] at hi ⊢
        rcases hi with rfl | rfl | rfl | rfl | rfl | rfl <;> omega

/-- C9: every mesh produced by the three tessellation functions, for every
input, has exactly one color per vertex (the single requested color
broadcast once per vertex), and whenever an index buffer is present every
index is below the number of vertices. -/
theorem mesh_invariants :
    (∀ (ctr : ℝ × ℝ) (r : ℝ) (n : ℕ) (col : Color) (fill : Bool),
      MeshWF (generateCircle ctr r n col fill))
    ∧ (∀ (o : ℝ × ℝ) (w h : ℝ) (col : Color) (fill : Bool),
      MeshWF (generateRectangle o w h col fill))
    ∧ (∀ (p1 p2 : ℝ × ℝ) (col : Color) (w : ℝ),
      MeshWF (generateLine p1 p2 col w)) :=
  ⟨generateCircle_wf, generateRectangle_wf, generateLine_wf⟩

/-- C7: for every origin and positive width and height, the filled
rectangle mesh has exactly the four counter-clockwise corners starting at
the bottom-left origin, the index buffer `[0,1,2,2,3,0]`, and the shoelace
areas of the two indexed triangles sum to `width * height`. -/
theorem rectangle_filled_spec (o : ℝ × ℝ) (w h : ℝ) (col : Color)
    (hw : 0 < w) (hh : 0 < h) :
    (generateRectangle o w h col true).vertices
      = [(o.1, o.2), (o.1 + w, o.2), (o.1 + w, o.2 + h), (o.1, o.2 + h)]
    ∧ (generateRectangle o w h col true).indices = some [0, 1, 2, 2, 3, 0]
    ∧ triangleArea (o.1, o.2) (o.1 + w, o.2) (o.1 + w, o.2 + h)
        + triangleArea (o.1 + w, o.2 + h) (o.1, o.2 + h) (o.1, o.2)
        = w * h := by
  refine ⟨by simp [generateRectangle], by simp [generateRectangle], ?_⟩
  have h1 : triangleArea (o.1, o.2) (o.1 + w, o.2) (o.1 + w, o.2 + h)
      = w * h / 2 := by
    show |o.1 * (o.2 - (o.2 + h)) + (o.1 + w) * ((o.2 + h) - o.2)
        + (o.1 + w) * (o.2 - o.2)| / 2 = w * h / 2
    rw [show o.1 * (o.2 - (o.2 + h)) + (o.1 + w) * ((o.2 + h) - o.2)
        + (o.1 + w) * (o.2 - o.2) = w * h from by ring,
      abs_of_pos (mul_pos hw hh)]
  have h2 : triangleArea (o.1 + w, o.2 + h) (o.1, o.2 + h) (o.1, o.2)
      = w * h / 2 := by
    show |(o.1 + w) * ((o.2 + h) - o.2) + o.1 * (o.2 - (o.2 + h))
        + o.1 * ((o.2 + h) - (o.2 + h))| / 2 = w * h / 2
    rw [show (o.1 + w) * ((o.2 + h) - o.2) + o.1 * (o.2 - (o.2 + h))
        + o.1 * ((o.2 + h) - (o.2 + h)) = w * h from by ring,
      abs_of_pos (mul_pos hw hh)]
  rw [h1, h2]
  ring

/-- C7 witness: the theorem applied to origin `(0,0)`, width 10,
height 5. -/
theorem rectangle_filled_spec_witness :
    (0 : ℝ) < 10 ∧ (0 : ℝ) < 5 ∧
    ((generateRectangle (0, 0) 10 5 (255, 255, 255) true).vertices
        = [(0, 0), (0 + 10, 0), (0 + 10, 0 + 5), (0, 0 + 5)]
      ∧ (generateRectangle (0, 0) 10 5 (255, 255, 255) true).indices
        = some [0, 1, 2, 2, 3, 0]
      ∧ triangleArea (0, 0) (0 + 10, 0) (0 + 10, 0 + 5)
          + triangleArea (0 + 10, 0 + 5) (0, 0 + 5) (0, 0) = 10 * 5) :=
  ⟨by norm_num, by norm_num,
    rectangle_filled_spec (0, 0) 10 5 (255, 255, 255)
      (by norm_num) (by norm_num)⟩

/-- C6: a horizontal thick line takes the fast path and produces exactly
the mesh of the corresponding filled rectangle: same vertices in the same
order, same index buffer, same per-vertex colors. -/
theorem line_horizontal_fast_path (col : Color) :
    generateLine (0, 0) (10, 0) col 4
      = generateRectangle (0, -2) 10 4 col true := by
  rw [generateLine, if_neg (by norm_num : ¬((4 : ℝ) ≤ 1)),
    if_neg (show ¬(((10 : ℝ), (0 : ℝ)).1 = ((0 : ℝ), (0 : ℝ)).1) by norm_num),
    if_pos rfl, if_pos (show ((0 : ℝ), (0 : ℝ)).1 ≤ ((10 : ℝ), (0 : ℝ)).1
      by norm_num)]
  have habs : |((10 : ℝ), (0 : ℝ)).1 - ((0 : ℝ), (0 : ℝ)).1| = 10 := by
    norm_num
  rw [habs]
  norm_num

/-- C2 counterexample: at `segmentCount = 2 < 3`, `generateCircle` does not
fail; it returns a completely built 3-vertex outline mesh. -/
theorem circle_no_validation_counterexample :
    (generateCircle (0, 0) 1 2 (255, 255, 255) false).vertices.length = 3
    ∧ (generateCircle (0, 0) 1 2 (255, 255, 255) false).colors.length = 3
    ∧ (generateCircle (0, 0) 1 2 (255, 255, 255) false).indices = none := by
  refine ⟨?_, ?_, ?_⟩ <;> simp [generateCircle, circleLoop_length]

/-- C2 (amended): `generateCircle` performs no validation of
`segmentCount`: for `1 ≤ segmentCount < 3` it proceeds and returns a
fully-built degenerate mesh — `segmentCount + 1` outline vertices (or
`segmentCount + 2` filled vertices with the fan index buffer), with one
color per vertex — rather than failing with an `InvalidArgument` error. -/
theorem circle_no_validation (ctr : ℝ × ℝ) (r : ℝ) (n : ℕ) (col : Color)
    (h1 : 1 ≤ n) (h2 : n < 3) :
    ((generateCircle ctr r n col false).vertices.length = n + 1
      ∧ (generateCircle ctr r n col false).colors.length = n + 1
      ∧ (generateCircle ctr r n col false).indices = none)
    ∧ ((generateCircle ctr r n col true).vertices.length = n + 2
      ∧ (generateCircle ctr r n col true).colors.length = n + 2
      ∧ (generateCircle ctr r n col true).indices = some (fanOrder n)) := by
  refine ⟨⟨?_, ?_, ?_⟩, ?_, ?_, ?_⟩ <;>
    simp [generateCircle, circleLoop_length]

/-- C2 witness: the amended theorem applied at `segmentCount = 2`. -/
theorem circle_no_validation_witness :
    1 ≤ 2 ∧ 2 < 3 ∧
    (((generateCircle ((0 : ℝ), (0 : ℝ)) 1 2 (255, 255, 255) false).vertices.length
        = 2 + 1
      ∧ (generateCircle ((0 : ℝ), (0 : ℝ)) 1 2 (255, 255, 255) false).colors.length
        = 2 + 1
      ∧ (generateCircle ((0 : ℝ), (0 : ℝ)) 1 2 (255, 255, 255) false).indices
        = none)
    ∧ ((generateCircle ((0 : ℝ), (0 : ℝ)) 1 2 (255, 255, 255) true).vertices.length
        = 2 + 2
      ∧ (generateCircle ((0 : ℝ), (0 : ℝ)) 1 2 (255, 255, 255) true).colors.length
        = 2 + 2
      ∧ (generateCircle ((0 : ℝ), (0 : ℝ)) 1 2 (255, 255, 255) true).indices
        = some (fanOrder 2))) :=
  ⟨by norm_num, by norm_num,
    circle_no_validation (0, 0) 1 2 (255, 255, 255) (by norm_num) (by norm_num)⟩

/-- C3 counterexample: for the zero-length thick line `p1 = p2 = (0,0)`,
`thickness = 2`, `generateLine` neither fails with an error nor produces a
point/disc mesh: it returns the degenerate filled-rectangle quad with two
distinct vertices and the rectangle index buffer. -/
theorem line_zero_length_counterexample :
    (generateLine (0, 0) (0, 0) (255, 255, 255) 2).vertices
      = [(-1, 0), (1, 0), (1, 0), (-1, 0)]
    ∧ (generateLine (0, 0) (0, 0) (255, 255, 255) 2).indices
      = some [0, 1, 2, 2, 3, 0]
    ∧ ((-1, 0) : ℝ × ℝ) ≠ (1, 0) := by
  have h : generateLine ((0 : ℝ), (0 : ℝ)) (0, 0) (255, 255, 255) 2
      = generateRectangle (0 - 0.5 * 2, 0) 2 |(0 : ℝ) - 0| (255, 255, 255)
        true := by
    rw [generateLine, if_neg (by norm_num : ¬((2 : ℝ) ≤ 1)), if_pos rfl,
      if_pos (le_refl _)]
  rw [h]
  refine ⟨?_, by simp [generateRectangle], by norm_num [Prod.ext_iff]⟩
  simp [generateRectangle]
  norm_num

/-- C3 (amended): for a zero-length thick line (`p1 == p2`,
`thickness > 1.0`) `generateLine` neither fails nor special-cases the
input: the vertical-line branch fires and returns the degenerate
zero-height filled-rectangle mesh
`generateRectangle((p1.x - width/2, p1.y), width, 0, fill=true)`. -/
theorem line_zero_length_spec (p : ℝ × ℝ) (col : Color) (w : ℝ)
    (hw : 1 < w) :
    generateLine p p col w
      = generateRectangle (p.1 - 0.5 * w, p.2) w 0 col true
    ∧ (generateLine p p col w).vertices.length = 4
    ∧ (generateLine p p col w).indices = some [0, 1, 2, 2, 3, 0] := by
  have h : generateLine p p col w
      = generateRectangle (p.1 - 0.5 * w, p.2) w 0 col true := by
    rw [generateLine, if_neg (not_le.mpr hw), if_pos rfl,
      if_pos (le_refl _), sub_self, abs_zero]
  exact ⟨h, by rw [h]; simp [generateRectangle],
    by rw [h]; simp [generateRectangle]⟩

/-- C3 witness: the amended theorem applied at `p = (3,4)`,
`thickness = 2`. -/
theorem line_zero_length_spec_witness :
    (1 : ℝ) < 2 ∧
    (generateLine (3, 4) (3, 4) (255, 255, 255) 2
        = generateRectangle (3 - 0.5 * 2, 4) 2 0 (255, 255, 255) true
      ∧ (generateLine ((3 : ℝ), (4 : ℝ)) (3, 4) (255, 255, 255) 2).vertices.length = 4
      ∧ (generateLine ((3 : ℝ), (4 : ℝ)) (3, 4) (255, 255, 255) 2).indices
        = some [0, 1, 2, 2, 3, 0]) :=
  ⟨by norm_num, line_zero_length_spec (3, 4) (255, 255, 255) 2 (by norm_num)⟩

/-- C10: with thickness above 1, the vertical-line branch `p2.x = p1.x` is
checked first and delegates to the filled rectangle, so the coincident
case `p1 = p2` yields the degenerate zero-height rectangle mesh rather
than an error, and the general branch with its slope division by
`p2.x − p1.x` is reached only when `p2.x ≠ p1.x`, where that divisor is
nonzero. -/
theorem line_never_divides_by_zero (p1 p2 : ℝ × ℝ) (col : Color) (w : ℝ)
    (hw : 1 < w) :
    (p2.1 = p1.1 →
      generateLine p1 p2 col w
        = generateRectangle
            (if p1.2 ≤ p2.2 then (p1.1 - 0.5 * w, p1.2)
              else (p2.1 - 0.5 * w, p2.2)) w |p2.2 - p1.2| col true)
    ∧ (p1 = p2 →
      generateLine p1 p2 col w
        = generateRectangle (p1.1 - 0.5 * w, p1.2) w 0 col true)
    ∧ (p2.1 ≠ p1.1 → p2.2 ≠ p1.2 →
      generateLine p1 p2 col w = lineGeneralCase p1 p2 col w
        ∧ p2.1 - p1.1 ≠ 0) := by
  refine ⟨fun h => ?_, fun h => ?_, fun h1 h2 => ⟨?_, sub_ne_zero.mpr h1⟩⟩
  · rw [generateLine, if_neg (not_le.mpr hw), if_pos h]
  · subst h
    rw [generateLine, if_neg (not_le.mpr hw), if_pos rfl,
      if_pos (le_refl _), sub_self, abs_zero]
  · rw [generateLine, if_neg (not_le.mpr hw), if_neg h1, if_neg h2]

/-- C10 witness: the theorem applied to the coincident input
`p1 = p2 = (0,0)`, `thickness = 2`. -/
theorem line_never_divides_by_zero_witness :
    (1 : ℝ) < 2 ∧
    generateLine ((0 : ℝ), (0 : ℝ)) (0, 0) (255, 255, 255) 2
      = generateRectangle (0 - 0.5 * 2, 0) 2 0 (255, 255, 255) true :=
  ⟨by norm_num,
    (line_never_divides_by_zero (0, 0) (0, 0) (255, 255, 255) 2
      (by norm_num)).2.1 rfl⟩

/-- C4: for every `segmentCount ≥ 3`, the outline circle has exactly
`segmentCount + 1` vertices and no index buffer; vertex 0 is the circle's
top `(cx, cy + r)` and, in exact arithmetic, vertex `segmentCount` equals
vertex 0 (the closing point). -/
theorem circle_outline_spec (ctr : ℝ × ℝ) (r : ℝ) (n : ℕ) (col : Color)
    (hn : 3 ≤ n) :
    (generateCircle ctr r n col false).vertices.length = n + 1
    ∧ (generateCircle ctr r n col false).indices = none
    ∧ (generateCircle ctr r n col false).vertices.getD 0 (0, 0)
        = (ctr.1, ctr.2 + r)
    ∧ (generateCircle ctr r n col false).vertices.getD n (0, 0)
        = (generateCircle ctr r n col false).vertices.getD 0 (0, 0) := by
  have hv := generateCircle_outline_vertices ctr r n col
  have hne : (n : ℝ) ≠ 0 := Nat.cast_ne_zero.mpr (by omega)
  have hang : (n : ℝ) * radians (360 / n) = 2 * Real.pi := by
    rw [radians]
    field_simp
    ring
  refine ⟨by rw [hv]; simp, by simp [generateCircle], by rw [hv]; rfl, ?_⟩
  rw [hv]
  obtain ⟨m, hm⟩ : ∃ m, n = m + 1 := ⟨n - 1, by omega⟩
  rw [List.getD_cons_zero]
  conv_lhs => rw [hm, List.getD_cons_succ]
  rw [List.getD_eq_getElem _ _ (by simp [hm])]
  simp only [List.getElem_map, List.getElem_range]
  rw [show m + 1 = n from hm.symm, rot_iterate, hang, Real.cos_two_pi,
    Real.sin_two_pi]
  simp only [rot]
  refine Prod.ext ?_ ?_ <;> simp [add_comm]

/-- C4 witness: the theorem applied at center `(0,0)`, radius 1,
`segmentCount = 3`. -/
theorem circle_outline_spec_witness :
    3 ≤ 3 ∧
    ((generateCircle ((0 : ℝ), (0 : ℝ)) 1 3 (255, 255, 255) false).vertices.length
        = 3 + 1
    ∧ (generateCircle ((0 : ℝ), (0 : ℝ)) 1 3 (255, 255, 255) false).indices = none
    ∧ (generateCircle ((0 : ℝ), (0 : ℝ)) 1 3 (255, 255, 255) false).vertices.getD
        0 (0, 0) = (0, 0 + 1)
    ∧ (generateCircle ((0 : ℝ), (0 : ℝ)) 1 3 (255, 255, 255) false).vertices.getD
        3 (0, 0)
      = (generateCircle ((0 : ℝ), (0 : ℝ)) 1 3 (255, 255, 255) false).vertices.getD
        0 (0, 0)) :=
  ⟨by norm_num, circle_outline_spec (0, 0) 1 3 (255, 255, 255) (by norm_num)⟩

/-- C5: for every `segmentCount ≥ 3`, the filled circle has
`segmentCount + 2` vertices with the center prepended as vertex 0, and its
index buffer is exactly the triangle fan: `segmentCount` consecutive
triples `(0, i, i+1)` for `i = 1 .. segmentCount`, each referencing the
center vertex 0. -/
theorem circle_filled_spec (ctr : ℝ × ℝ) (r : ℝ) (n : ℕ) (col : Color)
    (hn : 3 ≤ n) :
    (generateCircle ctr r n col true).vertices.length = n + 2
    ∧ (generateCircle ctr r n col true).vertices.getD 0 (0, 0) = ctr
    ∧ (generateCircle ctr r n col true).indices = some (fanOrder n)
    ∧ (fanOrder n).length = 3 * n
    ∧ ∀ k, k < n →
        (fanOrder n).getD (3 * k) 0 = 0
        ∧ (fanOrder n).getD (3 * k + 1) 0 = k + 1
        ∧ (fanOrder n).getD (3 * k + 2) 0 = k + 2 := by
  refine ⟨?_, ?_, by simp [generateCircle], fanLoop_length n 1,
    fun k hk => ?_⟩
  · simp [generateCircle, circleLoop_length]
  · simp [generateCircle]
  · have h := fanLoop_getD n 1 k hk
    unfold fanOrder
    exact ⟨h.1, by have := h.2.1; omega, by have := h.2.2; omega⟩

/-- C5 witness: the theorem applied at `segmentCount = 3`, with the
triangle-triple consequence instantiated at `k = 1`. -/
theorem circle_filled_spec_witness :
    3 ≤ 3 ∧
    (generateCircle ((0 : ℝ), (0 : ℝ)) 1 3 (255, 255, 255) true).vertices.length
      = 3 + 2
    ∧ (generateCircle ((0 : ℝ), (0 : ℝ)) 1 3 (255, 255, 255) true).vertices.getD
        0 (0, 0) = (0, 0)
    ∧ (generateCircle ((0 : ℝ), (0 : ℝ)) 1 3 (255, 255, 255) true).indices
      = some (fanOrder 3)
    ∧ (fanOrder 3).length = 3 * 3
    ∧ (fanOrder 3).getD (3 * 1) 0 = 0
    ∧ (fanOrder 3).getD (3 * 1 + 1) 0 = 1 + 1
    ∧ (fanOrder 3).getD (3 * 1 + 2) 0 = 1 + 2 := by
  have h := circle_filled_spec (0, 0) 1 3 (255, 255, 255) (by norm_num)
  have h5 := h.2.2.2.2 1 (by norm_num)
  exact ⟨by norm_num, h.1, h.2.1, h.2.2.1, h.2.2.2.1, h5.1, h5.2.1, h5.2.2⟩

/-- C8: for every radius `r > 0` and `segmentCount ≥ 3`, every vertex of
the outline circle — the top starting point together with all vertices
produced by the incremental-rotation loop — lies at distance exactly `r`
from the center, in exact real arithmetic; and the filled circle's vertex
list is the center prepended to exactly that same perimeter list. -/
theorem circle_radius_invariant (ctr : ℝ × ℝ) (r : ℝ) (n : ℕ) (col : Color)
    (hn : 3 ≤ n) (hr : 0 < r) :
    (∀ v ∈ (generateCircle ctr r n col false).vertices,
        Real.sqrt ((v.1 - ctr.1) ^ 2 + (v.2 - ctr.2) ^ 2) = r)
    ∧ (generateCircle ctr r n col true).vertices
        = ctr :: (generateCircle ctr r n col false).vertices := by
  have key : ∀ C S : ℝ, S ^ 2 + C ^ 2 = 1 →
      Real.sqrt (((rot C S ((0 : ℝ), r)).1 + ctr.1 - ctr.1) ^ 2
        + ((rot C S ((0 : ℝ), r)).2 + ctr.2 - ctr.2) ^ 2) = r := by
    intro C S hcs
    rw [show ((rot C S ((0 : ℝ), r)).1 + ctr.1 - ctr.1) ^ 2
        + ((rot C S ((0 : ℝ), r)).2 + ctr.2 - ctr.2) ^ 2
        = r ^ 2 * (S ^ 2 + C ^ 2) from by simp only [rot]; ring,
      hcs, mul_one, Real.sqrt_sq hr.le]
  constructor
  · intro v hv
    rw [generateCircle_outline_vertices] at hv
    rcases List.mem_cons.mp hv with rfl | hv
    · show Real.sqrt ((ctr.1 - ctr.1) ^ 2 + (ctr.2 + r - ctr.2) ^ 2) = r
      rw [show (ctr.1 - ctr.1) ^ 2 + (ctr.2 + r - ctr.2) ^ 2 = r ^ 2 from by
        ring, Real.sqrt_sq hr.le]
    · obtain ⟨k, _, rfl⟩ := List.mem_map.mp hv
      rw [rot_iterate]
      exact key _ _ (Real.sin_sq_add_cos_sq _)
  · simp [generateCircle]

/-- C8 witness: the theorem applied at center `(0,0)`, radius 1,
`segmentCount = 3`, with the distance consequence evaluated at the first
(top) vertex. -/
theorem circle_radius_invariant_witness :
    3 ≤ 3 ∧ (0 : ℝ) < 1 ∧
    Real.sqrt ((0 - 0 : ℝ) ^ 2 + (0 + 1 - 0 : ℝ) ^ 2) = 1
    ∧ (generateCircle ((0 : ℝ), (0 : ℝ)) 1 3 (255, 255, 255) true).vertices
      = (0, 0) :: (generateCircle ((0 : ℝ), (0 : ℝ)) 1 3 (255, 255, 255)
          false).vertices := by
  have h := circle_radius_invariant (0, 0) 1 3 (255, 255, 255)
    (by norm_num) (by norm_num)
  refine ⟨by norm_num, by norm_num, ?_, h.2⟩
  exact h.1 (0, 0 + 1)
    (by rw [generateCircle_outline_vertices]; exact List.mem_cons_self _ _)

/-- The exact corner vertices `generateLine` produces for the general-case
input `p1 = (0,0)`, `p2 = (10,10)`, `thickness = 2`: the code rotates the
already-direction-aligned local endpoints once more, so the quad does not
hug the line. -/
theorem line_general_example_vertices :
    (generateLine ((0 : ℝ), (0 : ℝ)) (10, 10) (255, 255, 255) 2).vertices
      = [(5 - 1 / Real.sqrt 2, 5 - 9 / Real.sqrt 2),
         (5 + 1 / Real.sqrt 2, 5 - 11 / Real.sqrt 2),
         (5 + 1 / Real.sqrt 2, 5 + 9 / Real.sqrt 2),
         (5 - 1 / Real.sqrt 2, 5 + 11 / Real.sqrt 2)] := by
  rw [generateLine, if_neg (by norm_num : ¬((2 : ℝ) ≤ 1)),
    if_neg (show ¬(((10 : ℝ), (10 : ℝ)).1 = ((0 : ℝ), (0 : ℝ)).1) by norm_num),
    if_neg (show ¬(((10 : ℝ), (10 : ℝ)).2 = ((0 : ℝ), (0 : ℝ)).2) by norm_num)]
  simp only [lineGeneralCase]
  norm_num [Prod.ext_iff]
  refine ⟨⟨by ring, by ring⟩, ⟨by ring, by ring⟩, ⟨by ring, by ring⟩,
    by ring, by ring⟩

/-- C1 (divergence at the failing input): for `p1=(0,0)`, `p2=(10,10)`,
`thickness = 2`, the squared perpendicular distances of the four output
corners from the line through `p1` and `p2` are `16, 36, 16, 36`
(distances `4, 6, 4, 6`), not the squared distance `1` the claim asserts
for every corner. -/
theorem line_general_divergence :
    (generateLine ((0 : ℝ), (0 : ℝ)) (10, 10) (255, 255, 255) 2).vertices.map
        perpOffsetSq = [16, 36, 16, 36]
    ∧ (16 : ℝ) ≠ 1 ∧ (36 : ℝ) ≠ 1 := by
  have hs2 : Real.sqrt 2 ^ 2 = 2 := Real.sq_sqrt (by norm_num)
  refine ⟨?_, by norm_num, by norm_num⟩
  rw [line_general_example_vertices]
  simp only [List.map_cons, List.map_nil, perpOffsetSq]
  refine congrArg₂ _ ?_ (congrArg₂ _ ?_ (congrArg₂ _ ?_ (congrArg₂ _ ?_ rfl)))
  · rw [show (5 - 9 / Real.sqrt 2) - (5 - 1 / Real.sqrt 2)
        = -8 / Real.sqrt 2 from by ring, div_pow, hs2]
    norm_num
  · rw [show (5 - 11 / Real.sqrt 2) - (5 + 1 / Real.sqrt 2)
        = -12 / Real.sqrt 2 from by ring, div_pow, hs2]
    norm_num
  · rw [show (5 + 9 / Real.sqrt 2) - (5 + 1 / Real.sqrt 2)
        = 8 / Real.sqrt 2 from by ring, div_pow, hs2]
    norm_num
  · rw [show (5 + 11 / Real.sqrt 2) - (5 - 1 / Real.sqrt 2)
        = 12 / Real.sqrt 2 from by ring, div_pow, hs2]
    norm_num

end Tess
